import Mathlib

/-!
Verification development for the 3x3 colored-marker coverage detector.

The detector pipeline (color segmentation, quad extraction, perspective
normalization, 3x3 grid validation, coverage computation, accept/reject
decision) is shallowly embedded here.  Pure orchestration logic is
translated directly from the C++ sources; the underlying image-processing
primitives that the specification treats as external collaborators
(Gaussian blur, BGR-to-HSV conversion, CLAHE, morphology, dilation,
Sobel gradients, contour-based quad extraction, perspective warping)
are abstracted as a record of function parameters, so every theorem
quantifies over their behavior.

Images are 3-channel grids of 8-bit samples modelled as Nat-valued
functions together with explicit dimensions; masks are 1-channel grids.
Floating-point quantities (fractions, coverage percentages, polygon
coordinates) are modelled exactly over the rationals.
-/

/-- One 3-channel pixel; for HSV data the channels are hue, saturation, value. -/
structure Px3 where
  c1 : Nat
  c2 : Nat
  c3 : Nat
deriving DecidableEq

/-- A 3-channel image: dimensions plus a pixel map indexed by row then column. -/
structure Image where
  rows : Nat
  cols : Nat
  px : Nat → Nat → Px3

/-- A 1-channel image (binary mask or gray plane), indexed by row then column. -/
structure Mask where
  rows : Nat
  cols : Nat
  px : Nat → Nat → Nat

/-- Number of elements of a Mat, as in cv Mat total: rows times cols. -/
def Image.total (i : Image) : Nat := i.rows * i.cols

/-- Count of nonzero mask entries, as in cv countNonZero. -/
def Mask.countNonZero (m : Mask) : Nat :=
  ((List.range m.rows).map
    (fun y => ((List.range m.cols).filter (fun x => m.px y x ≠ 0)).length)).sum

/-- Bitwise OR of two masks (cv bitwise or on 8-bit planes). -/
def maskOr (a b : Mask) : Mask :=
  ⟨a.rows, a.cols, fun y x => Nat.lor (a.px y x) (b.px y x)⟩

/-- Bitwise AND of two masks (cv bitwise and on 8-bit planes). -/
def maskAnd (a b : Mask) : Mask :=
  ⟨a.rows, a.cols, fun y x => Nat.land (a.px y x) (b.px y x)⟩

/-- Bitwise AND of a mask with the 8-bit complement of another,
modelling bitwise and of mask with the negation of white (8-bit not is 255 minus the byte). -/
def maskAndNot (a b : Mask) : Mask :=
  ⟨a.rows, a.cols, fun y x => Nat.land (a.px y x) (255 - b.px y x)⟩

/-- cv threshold with THRESH BINARY: strictly above the threshold goes to 255, else 0. -/
def maskThreshold (m : Mask) (t : Int) : Mask :=
  ⟨m.rows, m.cols, fun y x => if t < (m.px y x : Int) then 255 else 0⟩

namespace geom

/-- Edge-by-edge shoelace sum: cross terms of consecutive vertices, with a
closing edge back to the first vertex p0. -/
def shoelaceFrom (p0 : ℚ × ℚ) : List (ℚ × ℚ) → ℚ
  | [] => 0
  | [p] => p.1 * p0.2 - p0.1 * p.2
  | p :: q :: rest => (p.1 * q.2 - q.1 * p.2) + shoelaceFrom p0 (q :: rest)

/-- Cyclic shoelace sum of a polygon given as a list of rational points. -/
def shoelace : List (ℚ × ℚ) → ℚ
  | [] => 0
  | p :: rest => shoelaceFrom p (p :: rest)

/-- cv contourArea with oriented set to false: absolute shoelace area. -/
def contourArea (l : List (ℚ × ℚ)) : ℚ := |shoelace l| / 2

/-- Translated from geom polygonCoveragePercent in main.cpp: degenerate
polygons (fewer than 3 vertices) give 0, a nonpositive image area gives 0,
otherwise 100 times the contour area over width times height. -/
def polygonCoveragePercent (poly : List (ℚ × ℚ)) (sz : Nat × Nat) : ℚ :=
  if poly.length < 3 then 0
  else
    let A := contourArea poly
    let total : ℚ := (sz.1 : ℚ) * (sz.2 : ℚ)
    if total ≤ 0 then 0 else 100 * A / total

end geom

namespace grid

/-- Loop body of minIndexInRange from grid_detector.cpp: scan indices,
keeping the first index attaining the strictly smallest value so far. -/
def minIdxGo (f : Nat → Nat) : Nat → Nat → Nat → Nat → Nat
  | 0, _, bestIdx, _ => bestIdx
  | fuel + 1, x, bestIdx, bestVal =>
    if f x < bestVal then minIdxGo f fuel (x + 1) x (f x)
    else minIdxGo f fuel (x + 1) bestIdx bestVal

/-- minIndexInRange from grid_detector.cpp: index of the minimum value in
the half-open window from lo to hi, starting from bestIdx lo and bestVal
INT MAX; an empty window returns lo. -/
def minIndexInRange (f : Nat → Nat) (lo hi : Nat) : Nat :=
  minIdxGo f (hi - lo) lo lo 2147483647

/-- near from grid_detector.cpp: absolute difference within tolerance. -/
def near (x target tol : Nat) : Bool :=
  decide (((x : Int) - (target : Int)).natAbs ≤ tol)

/-- Column sums of a mask (cv reduce along rows with REDUCE SUM). -/
def colsum (m : Mask) (x : Nat) : Nat :=
  ((List.range m.rows).map (fun y => m.px y x)).sum

/-- Row sums of a mask (cv reduce along columns with REDUCE SUM). -/
def rowsum (m : Mask) (y : Nat) : Nat :=
  ((List.range m.cols).map (fun x => m.px y x)).sum

/-- Seam report: two vertical and two horizontal seam indices plus validity. -/
structure Seams where
  cx1 : Nat
  cx2 : Nat
  cy1 : Nat
  cy2 : Nat
  ok : Bool

/-- Translated from grid checkGridSeams in grid_detector.cpp.  Seams are
minima of column and row sums searched in windows around one third and two
thirds; validity requires both tolerance tests (one sixth of the dimension
around the ideal thirds) and strict separation above one sixth. -/
def checkGridSeams (m : Mask) : Seams :=
  let W := m.cols
  let H := m.rows
  let cx1 := minIndexInRange (colsum m) (W / 5) (2 * W / 5)
  let cx2 := minIndexInRange (colsum m) (3 * W / 5) (4 * W / 5)
  let cy1 := minIndexInRange (rowsum m) (H / 5) (2 * H / 5)
  let cy2 := minIndexInRange (rowsum m) (3 * H / 5) (4 * H / 5)
  let okX := near cx1 (W / 3) (W / 6) && near cx2 (2 * W / 3) (W / 6)
  let okY := near cy1 (H / 3) (H / 6) && near cy2 (2 * H / 3) (H / 6)
  let spacing_ok :=
    decide (((W : Int)) / 6 < (cx2 : Int) - (cx1 : Int)) &&
    decide (((H : Int)) / 6 < (cy2 : Int) - (cy1 : Int))
  ⟨cx1, cx2, cy1, cy2, okX && okY && spacing_ok⟩

/-- Per-cell fill report for the 3x3 grid. -/
structure CellsReport where
  frac : Nat → Nat → ℚ
  ok : Bool

/-- safeFraction from grid_detector.cpp: fraction of nonzero pixels of a
region, 0 for an empty or invalid region. -/
def safeFraction (m : Mask) : ℚ :=
  if m.rows * m.cols = 0 then 0
  else (m.countNonZero : ℚ) / ((m.rows * m.cols : Nat) : ℚ)

/-- The cell region used by grid checkGridCells: a 3x3 partition where the
right column and bottom row absorb the remainder of the integer division. -/
def cellRoi (m : Mask) (r c : Nat) : Mask :=
  let N := m.rows
  let cell := N / 3
  let x := c * cell
  let y := r * cell
  let w := if c = 2 then N - x else cell
  let h := if r = 2 then N - y else cell
  ⟨h, w, fun yy xx => m.px (y + yy) (x + xx)⟩

/-- Translated from grid checkGridCells in grid_detector.cpp: each of the 9
cell fractions is computed with safeFraction, and validity holds exactly
when no fraction falls below minFraction. -/
def checkGridCells (m : Mask) (minFraction : ℚ) : CellsReport :=
  let f := fun r c => safeFraction (cellRoi m r c)
  { frac := f
    ok := (List.range 3).all fun r =>
      (List.range 3).all fun c => !(decide (f r c < minFraction)) }

end grid

/-- External image-processing primitives consumed by the pipeline, per the
specification these are collaborators supplied by the imaging layer.  Each
pixel-level primitive returns only the pixel map; the orchestration code
re-attaches the dimensions that the corresponding cv operation guarantees
(blur, color conversion, CLAHE, morphology and gradients preserve the input
size; perspective warping to an N by N square produces an N by N image). -/
structure Prims where
  gaussianBlur : Int → Image → Nat → Nat → Px3
  cvtBGR2HSV : Image → Nat → Nat → Px3
  claheV : Image → Nat → Nat → Px3
  morphOpen : Mask → Int → Nat → Nat → Nat
  morphClose : Mask → Int → Nat → Nat → Nat
  dilate : Mask → Int → Nat → Nat → Nat
  unsharpV : Image → Nat → Nat → Nat
  sobelMag : Mask → Nat → Nat → Nat
  findStrongQuad : Mask → Option (List (ℚ × ℚ))
  warpPerspective : Image → List (ℚ × ℚ) → Nat → Nat → Nat → Px3

/-- An HSV range template from color_segmenter.cpp. -/
structure HsvRange where
  hmin : Int
  hmax : Int
  smin : Int
  smax : Int
  vmin : Int
  vmax : Int

/-- Whether a pixel lies inside an HSV range on all three channels (cv inRange). -/
def inRangePx (p : Px3) (r : HsvRange) : Bool :=
  decide (r.hmin ≤ (p.c1 : Int) ∧ (p.c1 : Int) ≤ r.hmax ∧
          r.smin ≤ (p.c2 : Int) ∧ (p.c2 : Int) ≤ r.smax ∧
          r.vmin ≤ (p.c3 : Int) ∧ (p.c3 : Int) ≤ r.vmax)

/-- inRangeH from color_segmenter.cpp: 255 where the pixel is in range, else 0. -/
def inRangeH (hsv : Image) (r : HsvRange) : Mask :=
  ⟨hsv.rows, hsv.cols, fun y x => if inRangePx (hsv.px y x) r then 255 else 0⟩

/-- clampi from color_segmenter.cpp. -/
def clampi (v lo hi : Int) : Int := max lo (min hi v)

/-- Translated from buildAllowedMaskHSV in color_segmenter.cpp: union of the
seven fixed hue templates whose saturation and value floors are raised to at
least the global floors (clamped to 0..255), with low-saturation high-value
white highlight pixels then suppressed from the union. -/
def buildAllowedMaskHSV (hsv : Image) (smin vmin : Int) : Mask :=
  let applySV := fun (r : HsvRange) =>
    { r with smin := clampi (max r.smin smin) 0 255,
             vmin := clampi (max r.vmin vmin) 0 255 }
  let red1 := applySV ⟨0, 10, 80, 255, 50, 255⟩
  let red2 := applySV ⟨170, 180, 80, 255, 50, 255⟩
  let green := applySV ⟨40, 85, 60, 255, 50, 255⟩
  let yellow := applySV ⟨20, 35, 80, 255, 70, 255⟩
  let blue := applySV ⟨90, 130, 60, 255, 50, 255⟩
  let magenta := applySV ⟨135, 165, 60, 255, 50, 255⟩
  let cyan := applySV ⟨85, 100, 60, 255, 60, 255⟩
  let mask :=
    maskOr (maskOr (maskOr (maskOr (maskOr (maskOr
      (inRangeH hsv red1) (inRangeH hsv red2))
      (inRangeH hsv green)) (inRangeH hsv yellow))
      (inRangeH hsv blue)) (inRangeH hsv magenta)) (inRangeH hsv cyan)
  let white := inRangeH hsv ⟨0, 180, 0, 60, 210, 255⟩
  maskAndNot mask white

/-- Translated from gentleRelaxIfSparse in color_segmenter.cpp, with the two
loop iterations unrolled.  A mask whose nonzero fraction is below one
thousandth of max 1 total triggers lowering both floors by 10 (clamped to
0..255) and a rebuild from buildAllowedMaskHSV; at most two rebuilds occur. -/
def gentleRelaxIfSparse (hsv : Image) (mask : Mask) (smin vmin : Int) :
    Mask × Int × Int :=
  let total := max 1 hsv.total
  if total ≤ 1000 * mask.countNonZero then (mask, smin, vmin)
  else
    let s1 := clampi (smin - 10) 0 255
    let v1 := clampi (vmin - 10) 0 255
    let m1 := buildAllowedMaskHSV hsv s1 v1
    if total ≤ 1000 * m1.countNonZero then (m1, s1, v1)
    else
      let s2 := clampi (s1 - 10) 0 255
      let v2 := clampi (v1 - 10) 0 255
      (buildAllowedMaskHSV hsv s2 v2, s2, v2)

/-- Translated from build white rim in color_segmenter.cpp: white candidate
pixels (low saturation and high value, or strong highlights) intersected
with dilated bright edges from a thresholded gradient magnitude of the
unsharp-masked value channel, then dilated once more. -/
def build_white_rim (P : Prims) (hsv : Image)
    (s_max v_min edge_thresh dil_iter : Int) : Mask :=
  let white1 := inRangeH hsv ⟨0, 180, 0, s_max, v_min, 255⟩
  let white2 := inRangeH hsv ⟨0, 180, 0, 255, 220, 255⟩
  let white_cand := maskOr white1 white2
  let V_sharp : Mask := ⟨hsv.rows, hsv.cols, P.unsharpV hsv⟩
  let edges := maskThreshold ⟨V_sharp.rows, V_sharp.cols, P.sobelMag V_sharp⟩ edge_thresh
  let edges_dil := if 0 < dil_iter then
      (⟨edges.rows, edges.cols, P.dilate edges dil_iter⟩ : Mask) else edges
  let white_rim := maskAnd white_cand edges_dil
  if 0 < dil_iter then
    (⟨white_rim.rows, white_rim.cols, P.dilate white_rim 1⟩ : Mask)
  else white_rim

/-- The white-rim safety brake from ColorSegmenter allowedMaskHSV: subtract
the rim only when at least 65 percent of the previously lit pixels survive
(nz1 at least 0.65 times max 1 nz0); otherwise keep the mask untouched. -/
def applyRimBrake (mask rim : Mask) : Mask :=
  let nz0 := max 1 mask.countNonZero
  let mask_after := maskAndNot mask rim
  let nz1 := mask_after.countNonZero
  if 13 * nz0 ≤ 20 * nz1 then mask_after else mask

/-- Options for HSV segmentation, from color_segmenter.hpp. -/
structure SegOptions where
  blur_ksize : Int := 3
  open_iter : Int := 0
  close_iter : Int := 2
  smin : Int := 90
  vmin : Int := 80

namespace ColorSegmenter

/-- Translated from ColorSegmenter allowedMaskHSV in color_segmenter.cpp:
optional pre-blur, HSV conversion with CLAHE on the value channel, base
color mask with global floors, white-rim brake, gentle sparsity relaxation,
then morphological opening and closing when their iteration counts are
positive. -/
def allowedMaskHSV (P : Prims) (bgr : Image) (opt : SegOptions) : Mask :=
  let src := if 3 ≤ opt.blur_ksize ∧ opt.blur_ksize % 2 = 1 then
      (⟨bgr.rows, bgr.cols, P.gaussianBlur opt.blur_ksize bgr⟩ : Image) else bgr
  let hsv0 : Image := ⟨src.rows, src.cols, P.cvtBGR2HSV src⟩
  let hsv : Image := ⟨hsv0.rows, hsv0.cols, P.claheV hsv0⟩
  let mask0 := buildAllowedMaskHSV hsv opt.smin opt.vmin
  let mask1 := applyRimBrake mask0 (build_white_rim P hsv 110 200 25 1)
  let mask2 := (gentleRelaxIfSparse hsv mask1 opt.smin opt.vmin).1
  let mask3 := if 0 < opt.open_iter then
      (⟨mask2.rows, mask2.cols, P.morphOpen mask2 opt.open_iter⟩ : Mask) else mask2
  if 0 < opt.close_iter then
    (⟨mask3.rows, mask3.cols, P.morphClose mask3 opt.close_iter⟩ : Mask)
  else mask3

end ColorSegmenter

/-- Detection outcome, from marker_types.hpp. -/
structure DetectionResult where
  polygon : List (ℚ × ℚ)
  coverage_percent : ℚ
  grid_ok : Bool
deriving DecidableEq

/-- Detection options, from marker_types.hpp (defaults of the include tree). -/
structure DetectOptions where
  debug : Bool := false
  save_debug : Bool := false
  warp_size : Int := 320
  strict_grid : Bool := true
  min_cell_fraction : ℚ := 15 / 100
  max_side : Int := 1024
  pre_blur_ksize : Int := 3
  morph_open_iter : Int := 1
  morph_close_iter : Int := 2
  seg_smin : Int := 80
  seg_vmin : Int := 65

/-- The SegOptions built from DetectOptions in MarkerDetector detect, step 1. -/
def segOptsOf (opt : DetectOptions) : SegOptions :=
  { blur_ksize := opt.pre_blur_ksize
    open_iter := opt.morph_open_iter
    close_iter := opt.morph_close_iter
    smin := opt.seg_smin
    vmin := opt.seg_vmin }

/-- The one-shot local relaxation of segmentation options used for the
warped view in MarkerDetector detect, step 3: floors lowered by 20 (not
below 0) and at least one closing iteration forced. -/
def relaxedWarpOpts (sopt : SegOptions) : SegOptions :=
  { sopt with
    smin := max 0 (sopt.smin - 20)
    vmin := max 0 (sopt.vmin - 20)
    close_iter := max 1 sopt.close_iter }

/-- Warped-view mask construction from MarkerDetector detect, step 3: the
warped image is segmented with the same options, and when the result covers
less than 3 percent of the square (nonzero fraction below 3 over 100 of
max 1 total) it is recomputed exactly once with the relaxed options. -/
def warpedMaskOf (P : Prims) (warped : Image) (sopt : SegOptions) : Mask :=
  let wm := ColorSegmenter.allowedMaskHSV P warped sopt
  if 100 * wm.countNonZero < 3 * max 1 warped.total then
    ColorSegmenter.allowedMaskHSV P warped (relaxedWarpOpts sopt)
  else wm

/-- The N by N warped view of the quad in MarkerDetector detect, step 3,
with N being warp size clamped to at least 32. -/
def warpedOf (P : Prims) (bgr : Image) (opt : DetectOptions)
    (quad : List (ℚ × ℚ)) : Image :=
  let N := (max 32 opt.warp_size).toNat
  ⟨N, N, P.warpPerspective bgr quad N⟩

/-- Translated from the colorful cells fallback lambda in MarkerDetector
detect: on the HSV conversion of the warped color image, a 3x3 cell counts
as colorful when its mean saturation is at least 70 and its mean value at
least 60; the fallback holds when at least 7 of the 9 cells qualify. -/
def colorful_cells_ge7 (P : Prims) (warped : Image) : Bool :=
  let Nw := warped.rows
  let cell := Nw / 3
  let hsv : Image := ⟨warped.rows, warped.cols, P.cvtBGR2HSV warped⟩
  let okCell := fun (r c : Nat) =>
    let x := c * cell
    let y := r * cell
    let w := if c = 2 then Nw - x else cell
    let h := if r = 2 then Nw - y else cell
    let cnt := w * h
    let sumS := ((List.range h).map (fun yy =>
      ((List.range w).map (fun xx => (hsv.px (y + yy) (x + xx)).c2)).sum)).sum
    let sumV := ((List.range h).map (fun yy =>
      ((List.range w).map (fun xx => (hsv.px (y + yy) (x + xx)).c3)).sum)).sum
    decide (cnt ≠ 0 ∧ 70 * cnt ≤ sumS ∧ 60 * cnt ≤ sumV)
  let okCells := ((List.range 3).map
    (fun r => ((List.range 3).filter (fun c => okCell r c)).length)).sum
  decide (7 ≤ okCells)

/-- Grid decision from MarkerDetector detect, step 4 and 5: strict mode
requires both the seam and the cell check on the warped mask; permissive
mode takes the cell check or the colorful fallback. -/
def gridOkOf (P : Prims) (opt : DetectOptions) (warped : Image) : Bool :=
  let wm := warpedMaskOf P warped (segOptsOf opt)
  if opt.strict_grid then
    (grid.checkGridSeams wm).ok && (grid.checkGridCells wm opt.min_cell_fraction).ok
  else
    (grid.checkGridCells wm opt.min_cell_fraction).ok || colorful_cells_ge7 P warped

namespace MarkerDetector

/-- Translated from MarkerDetector detect in the current marker detector
source: input guard, segmentation, quad extraction (none when no quad),
warp and warped-mask with one-shot relaxation, grid validation and the
decision flag, final polygon equal to the extracted quad, the 0.5 percent
coverage floor, and the strict-mode rejection.  Every failure is the
absent result none; no fault is raised. -/
def detect (P : Prims) (bgr : Image) (opt : DetectOptions) :
    Option DetectionResult :=
  if bgr.rows * bgr.cols = 0 then none
  else
    match P.findStrongQuad (ColorSegmenter.allowedMaskHSV P bgr (segOptsOf opt)) with
    | none => none
    | some quad =>
      let cov := geom.polygonCoveragePercent quad (bgr.cols, bgr.rows)
      if cov < 1 / 2 then none
      else if opt.strict_grid && !(gridOkOf P opt (warpedOf P bgr opt quad)) then none
      else some
        { polygon := quad
          coverage_percent := cov
          grid_ok := gridOkOf P opt (warpedOf P bgr opt quad) }

end MarkerDetector

/-! ### Supporting lemmas -/

theorem length_filter_mono {l : List Nat} {p q : Nat → Bool}
    (h : ∀ a ∈ l, p a → q a) : (l.filter p).length ≤ (l.filter q).length := by
  induction l with
  | nil => simp
  | cons a t ih =>
    have ht : ∀ a ∈ t, p a → q a := fun a ha => h a (List.mem_cons_of_mem _ ha)
    by_cases hp : p a
    · have hq : q a := h a (List.mem_cons_self a t) hp
      simpa [List.filter_cons, hp, hq] using Nat.succ_le_succ (ih ht)
    · by_cases hq : q a
      · simpa [List.filter_cons, hp, hq] using Nat.le_succ_of_le (ih ht)
      · simpa [List.filter_cons, hp, hq] using ih ht

theorem countNonZero_maskAndNot_le (m r : Mask) :
    (maskAndNot m r).countNonZero ≤ m.countNonZero := by
  unfold Mask.countNonZero maskAndNot
  refine List.sum_le_sum (fun y _ => ?_)
  refine length_filter_mono (fun x _ hx => ?_)
  simp only [decide_eq_true_eq] at hx ⊢
  intro h0
  apply hx
  rw [h0]
  simp [Nat.land]

/-! ### C3: coverage percentage contract -/

/-- C3.  For a polygon with fewer than 3 vertices, and for a zero-area
image size, polygonCoveragePercent returns exactly 0; otherwise it returns
100 times the contour area of the polygon divided by width times height. -/
theorem polygonCoveragePercent_spec (poly : List (ℚ × ℚ)) (w h : Nat) :
    (poly.length < 3 → geom.polygonCoveragePercent poly (w, h) = 0) ∧
    (w * h = 0 → geom.polygonCoveragePercent poly (w, h) = 0) ∧
    (3 ≤ poly.length → 0 < w * h →
      geom.polygonCoveragePercent poly (w, h) =
        100 * geom.contourArea poly / ((w : ℚ) * (h : ℚ))) := by
  refine ⟨fun hlen => ?_, fun hz => ?_, fun hlen hpos => ?_⟩
  · simp [geom.polygonCoveragePercent, hlen]
  · rcases Nat.mul_eq_zero.mp hz with h0 | h0 <;>
      simp [geom.polygonCoveragePercent, h0]
  · have hlt : ¬ poly.length < 3 := not_lt.mpr hlen
    have hw : 0 < w := by
      rcases Nat.eq_zero_or_pos w with h0 | h0
      · rw [h0] at hpos
        simp at hpos
      · exact h0
    have hh : 0 < h := by
      rcases Nat.eq_zero_or_pos h with h0 | h0
      · rw [h0] at hpos
        simp at hpos
      · exact h0
    have hq : ¬ ((w : ℚ) * (h : ℚ) ≤ 0) := by
      push_neg
      positivity
    simp [geom.polygonCoveragePercent, hlt, hq]

/-- Witness for C3 at concrete inputs: a 2-point polygon yields 0, a
zero-width image yields 0, and a proper triangle on a 3 by 3 image yields
the area formula. -/
theorem polygonCoveragePercent_spec_w :
    (geom.polygonCoveragePercent [((0 : ℚ), (0 : ℚ)), (2, 0)] (3, 3) = 0) ∧
    (geom.polygonCoveragePercent [((0 : ℚ), (0 : ℚ)), (2, 0), (2, 2)] (0, 3) = 0) ∧
    (geom.polygonCoveragePercent [((0 : ℚ), (0 : ℚ)), (2, 0), (2, 2)] (3, 3) =
      100 * geom.contourArea [((0 : ℚ), (0 : ℚ)), (2, 0), (2, 2)] /
        (((3 : Nat) : ℚ) * ((3 : Nat) : ℚ))) :=
  ⟨(polygonCoveragePercent_spec [((0 : ℚ), (0 : ℚ)), (2, 0)] 3 3).1 (by decide),
   (polygonCoveragePercent_spec [((0 : ℚ), (0 : ℚ)), (2, 0), (2, 2)] 0 3).2.1 rfl,
   (polygonCoveragePercent_spec [((0 : ℚ), (0 : ℚ)), (2, 0), (2, 2)] 3 3).2.2
     (by decide) (by decide)⟩

/-! ### C4: white-rim subtraction safety brake -/

/-- C4.  The white rim is subtracted from the color mask exactly when the
subtraction removes at most 35 percent of the previously lit pixels; when
it would remove more the subtraction is discarded and the mask is returned
unchanged (an all-dark mask is also returned unchanged, and there the
subtracted mask coincides with it anyway). -/
theorem applyRimBrake_spec (mask rim : Mask) :
    (mask.countNonZero = 0 → applyRimBrake mask rim = mask) ∧
    (0 < mask.countNonZero →
      (20 * (mask.countNonZero - (maskAndNot mask rim).countNonZero) ≤
          7 * mask.countNonZero →
        applyRimBrake mask rim = maskAndNot mask rim) ∧
      (7 * mask.countNonZero <
          20 * (mask.countNonZero - (maskAndNot mask rim).countNonZero) →
        applyRimBrake mask rim = mask)) := by
  have hle : (maskAndNot mask rim).countNonZero ≤ mask.countNonZero :=
    countNonZero_maskAndNot_le mask rim
  unfold applyRimBrake
  refine ⟨fun h0 => ?_, fun hpos => ⟨fun hkeep => ?_, fun hdisc => ?_⟩⟩
  · have h1 : (maskAndNot mask rim).countNonZero = 0 := by omega
    rw [if_neg]
    omega
  · rw [if_pos]
    have hmax : max 1 mask.countNonZero = mask.countNonZero := by omega
    omega
  · rw [if_neg]
    have hmax : max 1 mask.countNonZero = mask.countNonZero := by omega
    omega

/-- Witness for C4: on a 1 by 2 fully lit mask whose rim covers one of the
two lit pixels, the subtraction would remove 50 percent, so the brake keeps
the mask unchanged. -/
theorem applyRimBrake_spec_w :
    applyRimBrake ⟨1, 2, fun _ _ => 255⟩ ⟨1, 2, fun _ x => if x = 0 then 255 else 0⟩ =
      ⟨1, 2, fun _ _ => 255⟩ :=
  ((applyRimBrake_spec ⟨1, 2, fun _ _ => 255⟩
      ⟨1, 2, fun _ x => if x = 0 then 255 else 0⟩).2 (by decide)).2 (by decide)

/-! ### C5: sparsity relaxation of the segmentation floors -/

/-- C5.  When the mask covers at least a thousandth of the image area no
relaxation happens and mask and floors are unchanged.  When it covers less,
both floors are lowered by the fixed step 10 and the mask is rebuilt from
the color-thresholding step; if the rebuilt mask is still sparse this is
retried exactly once more (floors lowered by 10 again), and never a third
time.  The floor hypotheses keep the 0..255 clamping of the step inactive,
as with the default floors of the pipeline. -/
theorem gentleRelaxIfSparse_spec (hsv : Image) (mask : Mask) (smin vmin : Int)
    (hs1 : 20 ≤ smin) (hs2 : smin ≤ 255) (hv1 : 20 ≤ vmin) (hv2 : vmin ≤ 255) :
    (max 1 hsv.total ≤ 1000 * mask.countNonZero →
      gentleRelaxIfSparse hsv mask smin vmin = (mask, smin, vmin)) ∧
    (1000 * mask.countNonZero < max 1 hsv.total →
      gentleRelaxIfSparse hsv mask smin vmin =
        (if max 1 hsv.total ≤
            1000 * (buildAllowedMaskHSV hsv (smin - 10) (vmin - 10)).countNonZero
         then (buildAllowedMaskHSV hsv (smin - 10) (vmin - 10), smin - 10, vmin - 10)
         else (buildAllowedMaskHSV hsv (smin - 20) (vmin - 20), smin - 20, vmin - 20))) := by
  have hcs : clampi (smin - 10) 0 255 = smin - 10 := by
    unfold clampi
    omega
  have hcv : clampi (vmin - 10) 0 255 = vmin - 10 := by
    unfold clampi
    omega
  have hcs2 : clampi (smin - 10 - 10) 0 255 = smin - 20 := by
    unfold clampi
    omega
  have hcv2 : clampi (vmin - 10 - 10) 0 255 = vmin - 20 := by
    unfold clampi
    omega
  constructor
  · intro hdense
    unfold gentleRelaxIfSparse
    simp only [if_pos hdense]
  · intro hsparse
    unfold gentleRelaxIfSparse
    rw [if_neg (by omega)]
    simp only [hcs, hcv, hcs2, hcv2]

/-- Witness for C5: a fully dark 2 by 2 HSV image with an all-zero mask is
sparse, so the relaxation rebuilds with floors 80 and 65 lowered by steps
of 10. -/
theorem gentleRelaxIfSparse_spec_w :
    gentleRelaxIfSparse ⟨2, 2, fun _ _ => ⟨0, 0, 0⟩⟩ ⟨2, 2, fun _ _ => 0⟩ 80 65 =
      (if max 1 (Image.total ⟨2, 2, fun _ _ => ⟨0, 0, 0⟩⟩) ≤
          1000 * (buildAllowedMaskHSV ⟨2, 2, fun _ _ => ⟨0, 0, 0⟩⟩ (80 - 10) (65 - 10)).countNonZero
       then (buildAllowedMaskHSV ⟨2, 2, fun _ _ => ⟨0, 0, 0⟩⟩ (80 - 10) (65 - 10), 80 - 10, 65 - 10)
       else (buildAllowedMaskHSV ⟨2, 2, fun _ _ => ⟨0, 0, 0⟩⟩ (80 - 20) (65 - 20), 80 - 20, 65 - 20)) :=
  (gentleRelaxIfSparse_spec ⟨2, 2, fun _ _ => ⟨0, 0, 0⟩⟩ ⟨2, 2, fun _ _ => 0⟩ 80 65
    (by decide) (by decide) (by decide) (by decide)).2 (by decide)

/-! ### C7: per-cell fill validation -/

/-- C7.  checkGridCells partitions a square mask into a 3x3 grid whose
right column and bottom row absorb the integer-division remainder, each
reported fraction is the safe nonzero fraction of its cell region, and the
validity flag holds exactly when all 9 fractions reach minFraction. -/
theorem checkGridCells_spec (m : Mask) (minFraction : ℚ) (_hsq : m.rows = m.cols) :
    (∀ r c, (grid.checkGridCells m minFraction).frac r c =
      grid.safeFraction (grid.cellRoi m r c)) ∧
    ((grid.checkGridCells m minFraction).ok = true ↔
      ∀ r c, r < 3 → c < 3 →
        minFraction ≤ (grid.checkGridCells m minFraction).frac r c) := by
  refine ⟨fun r c => rfl, ?_⟩
  unfold grid.checkGridCells
  simp only [List.all_eq_true, List.mem_range, Bool.not_eq_true',
    decide_eq_false_iff_not, not_lt]
  constructor
  · intro hall r c hr hc
    exact hall r hr c hc
  · intro hall r hr c hc
    exact hall r c hr hc

/-- Witness for C7 on a concrete square 4 by 4 mask that is fully lit: the
partition absorbs the remainder into the last row and column and all cells
reach fraction one half. -/
theorem checkGridCells_spec_w :
    (∀ r c, (grid.checkGridCells ⟨4, 4, fun _ _ => 255⟩ (1 / 2)).frac r c =
      grid.safeFraction (grid.cellRoi ⟨4, 4, fun _ _ => 255⟩ r c)) ∧
    ((grid.checkGridCells ⟨4, 4, fun _ _ => 255⟩ (1 / 2)).ok = true ↔
      ∀ r c, r < 3 → c < 3 →
        (1 : ℚ) / 2 ≤ (grid.checkGridCells ⟨4, 4, fun _ _ => 255⟩ (1 / 2)).frac r c) :=
  checkGridCells_spec ⟨4, 4, fun _ _ => 255⟩ (1 / 2) rfl

/-! ### C8: warped-view one-shot relaxation -/

/-- C8.  When the warped-view mask covers less than 3 percent of the square
the floors are lowered by exactly 20 each and at least one closing
iteration is forced, for exactly one re-segmentation of the warped view;
when it covers at least 3 percent the mask is kept as segmented with the
original options.  The mask of step 2 is computed from the unrelaxed
options in either case, so the relaxation never touches it.  The floor
hypotheses keep the clamping at 0 inactive, as with the default floors. -/
theorem warp_relaxation_spec (P : Prims) (bgr warped : Image) (opt : DetectOptions)
    (hs : 20 ≤ opt.seg_smin) (hv : 20 ≤ opt.seg_vmin) :
    (100 * (ColorSegmenter.allowedMaskHSV P warped (segOptsOf opt)).countNonZero <
        3 * max 1 warped.total →
      warpedMaskOf P warped (segOptsOf opt) =
        ColorSegmenter.allowedMaskHSV P warped
          { segOptsOf opt with
            smin := opt.seg_smin - 20
            vmin := opt.seg_vmin - 20
            close_iter := max 1 opt.morph_close_iter }) ∧
    (3 * max 1 warped.total ≤
        100 * (ColorSegmenter.allowedMaskHSV P warped (segOptsOf opt)).countNonZero →
      warpedMaskOf P warped (segOptsOf opt) =
        ColorSegmenter.allowedMaskHSV P warped (segOptsOf opt)) ∧
    (ColorSegmenter.allowedMaskHSV P bgr (segOptsOf opt) =
      ColorSegmenter.allowedMaskHSV P bgr
        { blur_ksize := opt.pre_blur_ksize
          open_iter := opt.morph_open_iter
          close_iter := opt.morph_close_iter
          smin := opt.seg_smin
          vmin := opt.seg_vmin }) := by
  have hrelax : relaxedWarpOpts (segOptsOf opt) =
      { segOptsOf opt with
        smin := opt.seg_smin - 20
        vmin := opt.seg_vmin - 20
        close_iter := max 1 opt.morph_close_iter } := by
    simp only [relaxedWarpOpts, segOptsOf, SegOptions.mk.injEq, true_and]
    constructor
    · omega
    · omega
  refine ⟨fun hsparse => ?_, fun hdense => ?_, rfl⟩
  · unfold warpedMaskOf
    rw [if_pos hsparse, hrelax]
  · unfold warpedMaskOf
    rw [if_neg (by omega)]

/-! ### Concrete fixtures used by witnesses and counterexamples -/

/-- A strongly saturated red HSV triple. -/
def cRed : Px3 := ⟨0, 200, 200⟩

/-- A dark, weakly saturated HSV triple (passes no hue template). -/
def cDark : Px3 := ⟨0, 30, 40⟩

/-- Corners of a quad covering almost all of a 32 by 32 image. -/
def cQuad : List (ℚ × ℚ) := [(0, 0), (31, 0), (31, 31), (0, 31)]

/-- A tiny unit quad, whose coverage of a 32 by 32 image is below 0.5 percent. -/
def tQuad : List (ℚ × ℚ) := [(0, 0), (1, 0), (1, 1), (0, 1)]

/-- A uniformly red 32 by 32 input image (pixels already in HSV form,
matched by the identity color conversion of the concrete primitives). -/
def cImg : Image := ⟨32, 32, fun _ _ => cRed⟩

/-- Concrete primitives: identity-like pixel operations, a quad extractor
returning the near-full quad, and a warp producing a uniformly dark view
(as happens when the marker area is blurred and desaturated). -/
def cPrims : Prims :=
  { gaussianBlur := fun _ i => i.px
    cvtBGR2HSV := fun i => i.px
    claheV := fun i => i.px
    morphOpen := fun m _ => m.px
    morphClose := fun m _ => m.px
    dilate := fun m _ => m.px
    unsharpV := fun i y x => (i.px y x).c3
    sobelMag := fun _ _ _ => 0
    findStrongQuad := fun _ => some cQuad
    warpPerspective := fun _ _ _ _ _ => cDark }

/-- The same primitives with a quad extractor returning the tiny quad. -/
def cPrimsTiny : Prims := { cPrims with findStrongQuad := fun _ => some tQuad }

/-- Permissive options: strict mode off, warp resolution at the minimum 32,
everything else at its default. -/
def cOptPerm : DetectOptions := { strict_grid := false, warp_size := 32 }

/-- The uniformly dark 32 by 32 warped view the concrete warp produces. -/
def cWarped : Image := ⟨32, 32, fun _ _ => cDark⟩

/-- Witness for C8: the all-dark 32 by 32 warped view segments to an empty
mask, which is below the 3 percent floor, so the relaxed options are used
for the single re-segmentation. -/
theorem warp_relaxation_spec_w :
    warpedMaskOf cPrims cWarped (segOptsOf cOptPerm) =
      ColorSegmenter.allowedMaskHSV cPrims cWarped
        { segOptsOf cOptPerm with
          smin := cOptPerm.seg_smin - 20
          vmin := cOptPerm.seg_vmin - 20
          close_iter := max 1 cOptPerm.morph_close_iter } :=
  (warp_relaxation_spec cPrims cWarped cWarped cOptPerm
      (by decide) (by decide)).1 (by decide)

/-! ### Seam search window lemmas -/

theorem minIdxGo_cases (f : Nat → Nat) :
    ∀ (fuel x bi bv : Nat), grid.minIdxGo f fuel x bi bv = bi ∨
      (x ≤ grid.minIdxGo f fuel x bi bv ∧ grid.minIdxGo f fuel x bi bv < x + fuel) := by
  intro fuel
  induction fuel with
  | zero => intro x bi bv; exact Or.inl rfl
  | succ n ih =>
    intro x bi bv
    unfold grid.minIdxGo
    by_cases h : f x < bv
    · rw [if_pos h]
      rcases ih (x + 1) x (f x) with h1 | h1
      · right
        omega
      · right
        omega
    · rw [if_neg h]
      rcases ih (x + 1) bi bv with h1 | h1
      · exact Or.inl h1
      · right
        omega

theorem minIndexInRange_bounds (f : Nat → Nat) (lo hi : Nat) :
    lo ≤ grid.minIndexInRange f lo hi ∧
      (grid.minIndexInRange f lo hi < hi ∨ grid.minIndexInRange f lo hi = lo) := by
  unfold grid.minIndexInRange
  rcases minIdxGo_cases f (hi - lo) lo lo 2147483647 with h | h
  · omega
  · omega

/-! ### C6: seam validity characterization -/

/-- C6.  The seam check reports valid exactly when both vertical seams lie
within the integer tolerance band of one sixth of the width around the
ideal one-third and two-thirds column positions, the same holds for the
horizontal seams over the height, and the two vertical (and the two
horizontal) seams are separated by at least one sixth of the corresponding
dimension.  The separation is stated exactly, over the rationals; its
equivalence with the strict integer comparison of the code holds because
the seam minima are confined to their search windows. -/
theorem checkGridSeams_ok_iff (m : Mask) (hr : 0 < m.rows) (hc : 0 < m.cols) :
    ((grid.checkGridSeams m).ok = true ↔
      (grid.near (grid.checkGridSeams m).cx1 (m.cols / 3) (m.cols / 6) = true ∧
       grid.near (grid.checkGridSeams m).cx2 (2 * m.cols / 3) (m.cols / 6) = true ∧
       grid.near (grid.checkGridSeams m).cy1 (m.rows / 3) (m.rows / 6) = true ∧
       grid.near (grid.checkGridSeams m).cy2 (2 * m.rows / 3) (m.rows / 6) = true ∧
       ((m.cols : ℚ) / 6 ≤ ((grid.checkGridSeams m).cx2 : ℚ) - ((grid.checkGridSeams m).cx1 : ℚ)) ∧
       ((m.rows : ℚ) / 6 ≤ ((grid.checkGridSeams m).cy2 : ℚ) - ((grid.checkGridSeams m).cy1 : ℚ)))) := by
  have key : ∀ (W c1 c2 : Nat), 0 < W →
      W / 5 ≤ c1 → c1 ≤ max (W / 5) (2 * W / 5 - 1) →
      3 * W / 5 ≤ c2 → c2 ≤ max (3 * W / 5) (4 * W / 5 - 1) →
      (((W : Int)) / 6 < (c2 : Int) - (c1 : Int) ↔
        (W : Int) ≤ 6 * ((c2 : Int) - (c1 : Int))) := by
    intro W c1 c2 h0 h1 h2 h3 h4
    omega
  have ecx1 : (grid.checkGridSeams m).cx1 =
      grid.minIndexInRange (grid.colsum m) (m.cols / 5) (2 * m.cols / 5) := rfl
  have ecx2 : (grid.checkGridSeams m).cx2 =
      grid.minIndexInRange (grid.colsum m) (3 * m.cols / 5) (4 * m.cols / 5) := rfl
  have ecy1 : (grid.checkGridSeams m).cy1 =
      grid.minIndexInRange (grid.rowsum m) (m.rows / 5) (2 * m.rows / 5) := rfl
  have ecy2 : (grid.checkGridSeams m).cy2 =
      grid.minIndexInRange (grid.rowsum m) (3 * m.rows / 5) (4 * m.rows / 5) := rfl
  obtain ⟨hx1lo, hx1hi⟩ := minIndexInRange_bounds (grid.colsum m) (m.cols / 5) (2 * m.cols / 5)
  obtain ⟨hx2lo, hx2hi⟩ := minIndexInRange_bounds (grid.colsum m) (3 * m.cols / 5) (4 * m.cols / 5)
  obtain ⟨hy1lo, hy1hi⟩ := minIndexInRange_bounds (grid.rowsum m) (m.rows / 5) (2 * m.rows / 5)
  obtain ⟨hy2lo, hy2hi⟩ := minIndexInRange_bounds (grid.rowsum m) (3 * m.rows / 5) (4 * m.rows / 5)
  rw [← ecx1] at hx1lo hx1hi
  rw [← ecx2] at hx2lo hx2hi
  rw [← ecy1] at hy1lo hy1hi
  rw [← ecy2] at hy2lo hy2hi
  have hsepx := key m.cols (grid.checkGridSeams m).cx1 (grid.checkGridSeams m).cx2
    hc hx1lo (by omega) hx2lo (by omega)
  have hsepy := key m.rows (grid.checkGridSeams m).cy1 (grid.checkGridSeams m).cy2
    hr hy1lo (by omega) hy2lo (by omega)
  have hqx : ((m.cols : ℚ) / 6 ≤
        ((grid.checkGridSeams m).cx2 : ℚ) - ((grid.checkGridSeams m).cx1 : ℚ)) ↔
      ((m.cols : Int) ≤
        6 * (((grid.checkGridSeams m).cx2 : Int) - ((grid.checkGridSeams m).cx1 : Int))) := by
    rw [div_le_iff₀ (by norm_num : (0 : ℚ) < 6)]
    constructor
    · intro h
      exact_mod_cast (by linarith :
        (m.cols : ℚ) ≤ 6 * (((grid.checkGridSeams m).cx2 : ℚ) - ((grid.checkGridSeams m).cx1 : ℚ)))
    · intro h
      have h2 : (m.cols : ℚ) ≤
          6 * (((grid.checkGridSeams m).cx2 : ℚ) - ((grid.checkGridSeams m).cx1 : ℚ)) := by
        exact_mod_cast h
      linarith
  have hqy : ((m.rows : ℚ) / 6 ≤
        ((grid.checkGridSeams m).cy2 : ℚ) - ((grid.checkGridSeams m).cy1 : ℚ)) ↔
      ((m.rows : Int) ≤
        6 * (((grid.checkGridSeams m).cy2 : Int) - ((grid.checkGridSeams m).cy1 : Int))) := by
    rw [div_le_iff₀ (by norm_num : (0 : ℚ) < 6)]
    constructor
    · intro h
      exact_mod_cast (by linarith :
        (m.rows : ℚ) ≤ 6 * (((grid.checkGridSeams m).cy2 : ℚ) - ((grid.checkGridSeams m).cy1 : ℚ)))
    · intro h
      have h2 : (m.rows : ℚ) ≤
          6 * (((grid.checkGridSeams m).cy2 : ℚ) - ((grid.checkGridSeams m).cy1 : ℚ)) := by
        exact_mod_cast h
      linarith
  constructor
  · intro hok
    have hok2 := hok
    unfold grid.checkGridSeams at hok2
    simp only [Bool.and_eq_true, decide_eq_true_eq] at hok2
    obtain ⟨⟨⟨hn1, hn2⟩, hn3, hn4⟩, hs1, hs2⟩ := hok2
    refine ⟨hn1, hn2, hn3, hn4, ?_, ?_⟩
    · exact hqx.mpr (hsepx.mp hs1)
    · exact hqy.mpr (hsepy.mp hs2)
  · intro hcond
    obtain ⟨hn1, hn2, hn3, hn4, hq1, hq2⟩ := hcond
    unfold grid.checkGridSeams
    simp only [Bool.and_eq_true, decide_eq_true_eq]
    exact ⟨⟨⟨hn1, hn2⟩, hn3, hn4⟩, hsepx.mpr (hqx.mp hq1), hsepy.mpr (hqy.mp hq2)⟩

/-! ### C10: tolerance confinement by the search windows -/

/-- A 9 by 9 mask whose column 1 is dark: its first vertical seam minimum
lands on column 1, inside the search window but outside the tolerance band. -/
def cexMask9 : Mask := ⟨9, 9, fun _ x => if x = 1 then 0 else 255⟩

/-- Counterexample to C10 as stated.  For the 9 by 9 mask cexMask9 the
search windows are nonempty, yet the first vertical seam (column 1) fails
the one-sixth tolerance test, so the validity flag is false even though
both seam-separation conditions hold: validity is not equivalent to the
separation condition alone. -/
theorem seams_window_tolerance_cex :
    ((9 : Nat) / 5 < 2 * 9 / 5 ∧ (3 * 9 : Nat) / 5 < 4 * 9 / 5) ∧
    (grid.checkGridSeams cexMask9).cx1 = 1 ∧
    grid.near (grid.checkGridSeams cexMask9).cx1 (9 / 3) (9 / 6) = false ∧
    ((9 : Int) / 6 <
      ((grid.checkGridSeams cexMask9).cx2 : Int) - ((grid.checkGridSeams cexMask9).cx1 : Int)) ∧
    ((9 : Int) / 6 <
      ((grid.checkGridSeams cexMask9).cy2 : Int) - ((grid.checkGridSeams cexMask9).cy1 : Int)) ∧
    (grid.checkGridSeams cexMask9).ok = false := by
  decide

/-- C10 amended.  For masks whose dimensions are at least 5 and different
from 9 (the counterexample dimension; 3 and 4 are below 5), every seam
position returned by the window search necessarily satisfies the one-sixth
tolerance test around the ideal thirds, and consequently the validity flag
equals the seam-separation test alone. -/
theorem seam_window_tol_lo : ∀ (W c1 : Nat), 5 ≤ W → W ≠ 9 →
    W / 5 ≤ c1 → c1 ≤ max (W / 5) (2 * W / 5 - 1) →
    ((c1 : Int) - ((W / 3 : Nat) : Int)).natAbs ≤ W / 6 := by
  intro W c1 h5 h9 h1 h2
  omega

set_option maxHeartbeats 1000000 in
theorem seam_window_tol_hi : ∀ (W c2 : Nat), 5 ≤ W → W ≠ 9 →
    3 * W / 5 ≤ c2 → c2 ≤ max (3 * W / 5) (4 * W / 5 - 1) →
    ((c2 : Int) - ((2 * W / 3 : Nat) : Int)).natAbs ≤ W / 6 := by
  intro W c2 h5 h9 h1 h2
  rcases Nat.lt_or_ge W 60 with hW | hW
  · interval_cases W <;> omega
  · omega

theorem seams_tolerance_automatic (m : Mask)
    (hc5 : 5 ≤ m.cols) (hc9 : m.cols ≠ 9) (hr5 : 5 ≤ m.rows) (hr9 : m.rows ≠ 9) :
    (grid.near (grid.checkGridSeams m).cx1 (m.cols / 3) (m.cols / 6) = true ∧
     grid.near (grid.checkGridSeams m).cx2 (2 * m.cols / 3) (m.cols / 6) = true ∧
     grid.near (grid.checkGridSeams m).cy1 (m.rows / 3) (m.rows / 6) = true ∧
     grid.near (grid.checkGridSeams m).cy2 (2 * m.rows / 3) (m.rows / 6) = true) ∧
    (grid.checkGridSeams m).ok =
      (decide (((m.cols : Int)) / 6 <
          ((grid.checkGridSeams m).cx2 : Int) - ((grid.checkGridSeams m).cx1 : Int)) &&
       decide (((m.rows : Int)) / 6 <
          ((grid.checkGridSeams m).cy2 : Int) - ((grid.checkGridSeams m).cy1 : Int))) := by
  have ecx1 : (grid.checkGridSeams m).cx1 =
      grid.minIndexInRange (grid.colsum m) (m.cols / 5) (2 * m.cols / 5) := rfl
  have ecx2 : (grid.checkGridSeams m).cx2 =
      grid.minIndexInRange (grid.colsum m) (3 * m.cols / 5) (4 * m.cols / 5) := rfl
  have ecy1 : (grid.checkGridSeams m).cy1 =
      grid.minIndexInRange (grid.rowsum m) (m.rows / 5) (2 * m.rows / 5) := rfl
  have ecy2 : (grid.checkGridSeams m).cy2 =
      grid.minIndexInRange (grid.rowsum m) (3 * m.rows / 5) (4 * m.rows / 5) := rfl
  obtain ⟨hx1lo, hx1hi⟩ := minIndexInRange_bounds (grid.colsum m) (m.cols / 5) (2 * m.cols / 5)
  obtain ⟨hx2lo, hx2hi⟩ := minIndexInRange_bounds (grid.colsum m) (3 * m.cols / 5) (4 * m.cols / 5)
  obtain ⟨hy1lo, hy1hi⟩ := minIndexInRange_bounds (grid.rowsum m) (m.rows / 5) (2 * m.rows / 5)
  obtain ⟨hy2lo, hy2hi⟩ := minIndexInRange_bounds (grid.rowsum m) (3 * m.rows / 5) (4 * m.rows / 5)
  rw [← ecx1] at hx1lo hx1hi
  rw [← ecx2] at hx2lo hx2hi
  rw [← ecy1] at hy1lo hy1hi
  rw [← ecy2] at hy2lo hy2hi
  have hn1 : grid.near (grid.checkGridSeams m).cx1 (m.cols / 3) (m.cols / 6) = true := by
    unfold grid.near
    simp only [decide_eq_true_eq]
    exact seam_window_tol_lo m.cols (grid.checkGridSeams m).cx1 hc5 hc9 hx1lo (by omega)
  have hn2 : grid.near (grid.checkGridSeams m).cx2 (2 * m.cols / 3) (m.cols / 6) = true := by
    unfold grid.near
    simp only [decide_eq_true_eq]
    exact seam_window_tol_hi m.cols (grid.checkGridSeams m).cx2 hc5 hc9 hx2lo (by omega)
  have hn3 : grid.near (grid.checkGridSeams m).cy1 (m.rows / 3) (m.rows / 6) = true := by
    unfold grid.near
    simp only [decide_eq_true_eq]
    exact seam_window_tol_lo m.rows (grid.checkGridSeams m).cy1 hr5 hr9 hy1lo (by omega)
  have hn4 : grid.near (grid.checkGridSeams m).cy2 (2 * m.rows / 3) (m.rows / 6) = true := by
    unfold grid.near
    simp only [decide_eq_true_eq]
    exact seam_window_tol_hi m.rows (grid.checkGridSeams m).cy2 hr5 hr9 hy2lo (by omega)
  refine ⟨⟨hn1, hn2, hn3, hn4⟩, ?_⟩
  have hok : (grid.checkGridSeams m).ok =
      ((grid.near (grid.checkGridSeams m).cx1 (m.cols / 3) (m.cols / 6) &&
        grid.near (grid.checkGridSeams m).cx2 (2 * m.cols / 3) (m.cols / 6)) &&
       (grid.near (grid.checkGridSeams m).cy1 (m.rows / 3) (m.rows / 6) &&
        grid.near (grid.checkGridSeams m).cy2 (2 * m.rows / 3) (m.rows / 6)) &&
       (decide (((m.cols : Int)) / 6 <
           ((grid.checkGridSeams m).cx2 : Int) - ((grid.checkGridSeams m).cx1 : Int)) &&
        decide (((m.rows : Int)) / 6 <
           ((grid.checkGridSeams m).cy2 : Int) - ((grid.checkGridSeams m).cy1 : Int)))) := rfl
  rw [hok, hn1, hn2, hn3, hn4]
  simp

/-- Witness for the amended C10 on a fully lit 10 by 10 mask. -/
theorem seams_tolerance_automatic_w :
    (grid.near (grid.checkGridSeams ⟨10, 10, fun _ _ => 255⟩).cx1 (10 / 3) (10 / 6) = true ∧
     grid.near (grid.checkGridSeams ⟨10, 10, fun _ _ => 255⟩).cx2 (2 * 10 / 3) (10 / 6) = true ∧
     grid.near (grid.checkGridSeams ⟨10, 10, fun _ _ => 255⟩).cy1 (10 / 3) (10 / 6) = true ∧
     grid.near (grid.checkGridSeams ⟨10, 10, fun _ _ => 255⟩).cy2 (2 * 10 / 3) (10 / 6) = true) ∧
    (grid.checkGridSeams ⟨10, 10, fun _ _ => 255⟩).ok =
      (decide (((10 : Int)) / 6 <
          ((grid.checkGridSeams ⟨10, 10, fun _ _ => 255⟩).cx2 : Int) -
          ((grid.checkGridSeams ⟨10, 10, fun _ _ => 255⟩).cx1 : Int)) &&
       decide (((10 : Int)) / 6 <
          ((grid.checkGridSeams ⟨10, 10, fun _ _ => 255⟩).cy2 : Int) -
          ((grid.checkGridSeams ⟨10, 10, fun _ _ => 255⟩).cy1 : Int))) := by
  have h := seams_tolerance_automatic ⟨10, 10, fun _ _ => 255⟩
    (by decide) (by decide) (by decide) (by decide)
  exact_mod_cast h

/-! ### Concrete evaluation helpers (rational arithmetic is settled by
norm-num since kernel reduction of Rat operations is unavailable) -/

theorem cWarped_eq : warpedOf cPrims cImg cOptPerm cQuad = cWarped := rfl

theorem cShoelace : geom.shoelace cQuad = 1922 := by
  norm_num [geom.shoelace, geom.shoelaceFrom, cQuad]

theorem tShoelace : geom.shoelace tQuad = 2 := by
  norm_num [geom.shoelace, geom.shoelaceFrom, tQuad]

theorem cCov : geom.polygonCoveragePercent cQuad (cImg.cols, cImg.rows) = 24025 / 256 := by
  unfold geom.polygonCoveragePercent
  rw [if_neg (by rw [show cQuad.length = 4 from rfl]; norm_num)]
  dsimp only
  rw [if_neg (by norm_num [cImg])]
  simp only [geom.contourArea, cShoelace, cImg]
  norm_num

theorem tCov : geom.polygonCoveragePercent tQuad (cImg.cols, cImg.rows) = 25 / 256 := by
  unfold geom.polygonCoveragePercent
  rw [if_neg (by rw [show tQuad.length = 4 from rfl]; norm_num)]
  dsimp only
  rw [if_neg (by norm_num [cImg])]
  simp only [geom.contourArea, tShoelace, cImg]
  norm_num

set_option maxRecDepth 8192 in
set_option maxHeartbeats 2000000 in
theorem cColorfulFalse : colorful_cells_ge7 cPrims cWarped = false := by decide

set_option maxRecDepth 8192 in
set_option maxHeartbeats 2000000 in
theorem cWarpedMaskCell0 :
    (grid.cellRoi (warpedMaskOf cPrims cWarped (segOptsOf cOptPerm)) 0 0).countNonZero = 0 := by
  decide

theorem checkGridCells_ok_false_of_cell0 (m : Mask) (minF : ℚ) (hpos : 0 < minF)
    (hzero : (grid.cellRoi m 0 0).countNonZero = 0) :
    (grid.checkGridCells m minF).ok = false := by
  have hf : grid.safeFraction (grid.cellRoi m 0 0) = 0 := by
    unfold grid.safeFraction
    by_cases h : (grid.cellRoi m 0 0).rows * (grid.cellRoi m 0 0).cols = 0
    · rw [if_pos h]
    · rw [if_neg h, hzero]
      simp
  show (List.range 3).all (fun r => (List.range 3).all
      (fun c => !(decide (grid.safeFraction (grid.cellRoi m r c) < minF)))) = false
  refine List.all_eq_false.mpr ⟨0, by simp, ?_⟩
  intro hall
  rw [List.all_eq_true] at hall
  have h0 := hall 0 (by simp)
  rw [Bool.not_eq_true', decide_eq_false_iff_not, not_lt] at h0
  rw [hf] at h0
  exact absurd hpos (not_lt.mpr h0)

theorem cCellsFalse :
    (grid.checkGridCells (warpedMaskOf cPrims cWarped (segOptsOf cOptPerm))
      cOptPerm.min_cell_fraction).ok = false :=
  checkGridCells_ok_false_of_cell0 _ _
    (by show (0 : ℚ) < 15 / 100; norm_num) cWarpedMaskCell0

theorem cGridOkFalse :
    gridOkOf cPrims cOptPerm (warpedOf cPrims cImg cOptPerm cQuad) = false := by
  rw [cWarped_eq]
  unfold gridOkOf
  rw [if_neg (by simp [show cOptPerm.strict_grid = false from rfl])]
  rw [cCellsFalse, cColorfulFalse]
  rfl

/-- The concrete permissive run: detect accepts and returns the quad with
coverage just under 94 percent and a false grid flag. -/
theorem cRun : MarkerDetector.detect cPrims cImg cOptPerm =
    some (DetectionResult.mk cQuad (24025 / 256) false) := by
  unfold MarkerDetector.detect
  rw [if_neg (by decide : ¬ (cImg.rows * cImg.cols = 0))]
  rw [show cPrims.findStrongQuad
      (ColorSegmenter.allowedMaskHSV cPrims cImg (segOptsOf cOptPerm)) = some cQuad from rfl]
  dsimp only
  rw [if_neg (by rw [cCov]; norm_num), if_neg (by
    simp [show cOptPerm.strict_grid = false from rfl])]
  rw [cCov, cGridOkFalse]

/-! ### C2: the 0.5 percent coverage floor -/

/-- C2.  Whenever a quad is extracted (so the run reaches the coverage
step) and the final polygon covers less than 0.5 percent of the image,
detect returns the absent result none; in this embedding detect is a total
function into an option type, so no fault can be raised. -/
theorem detect_coverage_guard (P : Prims) (bgr : Image) (opt : DetectOptions)
    (quad : List (ℚ × ℚ))
    (hq : P.findStrongQuad (ColorSegmenter.allowedMaskHSV P bgr (segOptsOf opt)) = some quad)
    (hcov : geom.polygonCoveragePercent quad (bgr.cols, bgr.rows) < 1 / 2) :
    MarkerDetector.detect P bgr opt = none := by
  unfold MarkerDetector.detect
  by_cases hg : bgr.rows * bgr.cols = 0
  · rw [if_pos hg]
  · rw [if_neg hg, hq]
    dsimp only
    rw [if_pos hcov]

/-- Witness for C2: with the tiny unit quad on the red 32 by 32 image the
coverage is below 0.5 percent and detect returns none. -/
theorem detect_coverage_guard_w :
    MarkerDetector.detect cPrimsTiny cImg cOptPerm = none :=
  detect_coverage_guard cPrimsTiny cImg cOptPerm tQuad rfl (by rw [tCov]; norm_num)

/-! ### C1: acceptance decision policy -/

/-- C1 as amended.  In strict mode an accepted detection implies that both
the seam check and the cell check on the warped mask passed.  In permissive
mode the grid-validity flag of the returned result equals the cell check or
the colorful fallback, but acceptance itself does not require either. -/
theorem detect_decision_policy (P : Prims) (bgr : Image) (opt : DetectOptions)
    (quad : List (ℚ × ℚ)) (res : DetectionResult)
    (hq : P.findStrongQuad (ColorSegmenter.allowedMaskHSV P bgr (segOptsOf opt)) = some quad)
    (hres : MarkerDetector.detect P bgr opt = some res) :
    (opt.strict_grid = true →
      (grid.checkGridSeams (warpedMaskOf P (warpedOf P bgr opt quad) (segOptsOf opt))).ok = true ∧
      (grid.checkGridCells (warpedMaskOf P (warpedOf P bgr opt quad) (segOptsOf opt))
          opt.min_cell_fraction).ok = true) ∧
    (opt.strict_grid = false →
      res.grid_ok =
        ((grid.checkGridCells (warpedMaskOf P (warpedOf P bgr opt quad) (segOptsOf opt))
            opt.min_cell_fraction).ok || colorful_cells_ge7 P (warpedOf P bgr opt quad))) := by
  unfold MarkerDetector.detect at hres
  by_cases hg : bgr.rows * bgr.cols = 0
  · rw [if_pos hg] at hres
    exact absurd hres (by simp)
  · rw [if_neg hg, hq] at hres
    dsimp only at hres
    by_cases hcov : geom.polygonCoveragePercent quad (bgr.cols, bgr.rows) < 1 / 2
    · rw [if_pos hcov] at hres
      exact absurd hres (by simp)
    · rw [if_neg hcov] at hres
      by_cases hrej : (opt.strict_grid && !(gridOkOf P opt (warpedOf P bgr opt quad))) = true
      · rw [if_pos hrej] at hres
        exact absurd hres (by simp)
      · rw [if_neg hrej] at hres
        have hresval : res.grid_ok = gridOkOf P opt (warpedOf P bgr opt quad) := by
          have h := (Option.some.inj hres).symm
          rw [h]
        constructor
        · intro hstrict
          have hgok : gridOkOf P opt (warpedOf P bgr opt quad) = true := by
            rcases Bool.eq_false_or_eq_true (gridOkOf P opt (warpedOf P bgr opt quad)) with h0 | h0
            · exact h0
            · exact absurd (by simp [hstrict, h0]) hrej
          have h2 : ((grid.checkGridSeams (warpedMaskOf P (warpedOf P bgr opt quad)
                (segOptsOf opt))).ok &&
              (grid.checkGridCells (warpedMaskOf P (warpedOf P bgr opt quad) (segOptsOf opt))
                opt.min_cell_fraction).ok) = true := by
            rw [← hgok]
            unfold gridOkOf
            rw [if_pos hstrict]
          simp only [Bool.and_eq_true] at h2
          exact h2
        · intro hperm
          rw [hresval]
          unfold gridOkOf
          rw [if_neg (by simp [hperm])]

/-- Witness for the amended C1: a concrete accepted permissive run whose
grid flag equals the disjunction of the cell check and the fallback. -/
theorem detect_decision_policy_w :
    (cOptPerm.strict_grid = true →
      (grid.checkGridSeams (warpedMaskOf cPrims (warpedOf cPrims cImg cOptPerm cQuad)
          (segOptsOf cOptPerm))).ok = true ∧
      (grid.checkGridCells (warpedMaskOf cPrims (warpedOf cPrims cImg cOptPerm cQuad)
          (segOptsOf cOptPerm)) cOptPerm.min_cell_fraction).ok = true) ∧
    (cOptPerm.strict_grid = false →
      (DetectionResult.mk cQuad (24025 / 256) false).grid_ok =
        ((grid.checkGridCells (warpedMaskOf cPrims (warpedOf cPrims cImg cOptPerm cQuad)
            (segOptsOf cOptPerm)) cOptPerm.min_cell_fraction).ok ||
          colorful_cells_ge7 cPrims (warpedOf cPrims cImg cOptPerm cQuad))) :=
  detect_decision_policy cPrims cImg cOptPerm cQuad
    (DetectionResult.mk cQuad (24025 / 256) false) rfl cRun

/-- Counterexample to C1 as stated.  A concrete permissive run accepts (a
result is returned) although the cell check fails and the colorful
fallback fails: permissive acceptance does not require cells.ok or
colorfulEnough; those checks only determine the grid-validity flag. -/
theorem detect_permissive_accepts_without_grid :
    cOptPerm.strict_grid = false ∧
    (MarkerDetector.detect cPrims cImg cOptPerm).isSome = true ∧
    (MarkerDetector.detect cPrims cImg cOptPerm).map DetectionResult.grid_ok = some false ∧
    (grid.checkGridCells (warpedMaskOf cPrims (warpedOf cPrims cImg cOptPerm cQuad)
        (segOptsOf cOptPerm)) cOptPerm.min_cell_fraction).ok = false ∧
    colorful_cells_ge7 cPrims (warpedOf cPrims cImg cOptPerm cQuad) = false ∧
    cPrims.findStrongQuad (ColorSegmenter.allowedMaskHSV cPrims cImg (segOptsOf cOptPerm)) =
      some cQuad := by
  refine ⟨rfl, ?_, ?_, ?_, ?_, rfl⟩
  · rw [cRun]
    rfl
  · rw [cRun]
    rfl
  · rw [cWarped_eq]
    exact cCellsFalse
  · rw [cWarped_eq]
    exact cColorfulFalse

/-! ### C9: coverage percentage of every returned result lies in 0..100 -/

/-- C9.  Any returned result carries a coverage percentage between 0 and
100, given that the quad extractor only produces polygons whose contour
area is bounded by the image area (contours, hence their approximations
and minimum-area enclosing boxes, live inside the image). -/
theorem detect_coverage_percent_range (P : Prims) (bgr : Image) (opt : DetectOptions)
    (res : DetectionResult)
    (harea : ∀ mk q, P.findStrongQuad mk = some q →
      geom.contourArea q ≤ ((bgr.cols * bgr.rows : Nat) : ℚ))
    (hres : MarkerDetector.detect P bgr opt = some res) :
    0 ≤ res.coverage_percent ∧ res.coverage_percent ≤ 100 := by
  unfold MarkerDetector.detect at hres
  by_cases hg : bgr.rows * bgr.cols = 0
  · rw [if_pos hg] at hres
    exact absurd hres (by simp)
  · rw [if_neg hg] at hres
    rcases hfq : P.findStrongQuad (ColorSegmenter.allowedMaskHSV P bgr (segOptsOf opt)) with
      _ | quad
    · rw [hfq] at hres
      exact absurd hres (by simp)
    · rw [hfq] at hres
      dsimp only at hres
      by_cases hcov : geom.polygonCoveragePercent quad (bgr.cols, bgr.rows) < 1 / 2
      · rw [if_pos hcov] at hres
        exact absurd hres (by simp)
      · rw [if_neg hcov] at hres
        by_cases hrej : (opt.strict_grid && !(gridOkOf P opt (warpedOf P bgr opt quad))) = true
        · rw [if_pos hrej] at hres
          exact absurd hres (by simp)
        · rw [if_neg hrej] at hres
          have hresval : res.coverage_percent =
              geom.polygonCoveragePercent quad (bgr.cols, bgr.rows) := by
            have h := (Option.some.inj hres).symm
            rw [h]
          rw [hresval]
          push_neg at hcov
          constructor
          · linarith
          · have hA := harea _ quad hfq
            unfold geom.polygonCoveragePercent
            by_cases hlen : quad.length < 3
            · rw [if_pos hlen]
              norm_num
            · rw [if_neg hlen]
              dsimp only
              by_cases htot : ((bgr.cols : ℚ)) * ((bgr.rows : ℚ)) ≤ 0
              · rw [if_pos htot]
                norm_num
              · rw [if_neg htot]
                push_neg at htot
                rw [div_le_iff₀ htot]
                have hle : geom.contourArea quad ≤ ((bgr.cols : ℚ)) * ((bgr.rows : ℚ)) := by
                  have : ((bgr.cols * bgr.rows : Nat) : ℚ) =
                      ((bgr.cols : ℚ)) * ((bgr.rows : ℚ)) := by
                    push_cast
                    ring
                  rw [this] at hA
                  exact hA
                nlinarith [geom.contourArea quad, hle, htot]

/-- Witness for C9 on the concrete accepted permissive run: coverage is
within bounds, and the concrete quad extractor satisfies the area bound. -/
theorem detect_coverage_percent_range_w :
    0 ≤ (DetectionResult.mk cQuad (24025 / 256) false).coverage_percent ∧
      (DetectionResult.mk cQuad (24025 / 256) false).coverage_percent ≤ 100 :=
  detect_coverage_percent_range cPrims cImg cOptPerm
    (DetectionResult.mk cQuad (24025 / 256) false)
    (fun mk q h => by
      rw [show q = cQuad from (Option.some.inj h).symm]
      have hs := cShoelace
      norm_num [geom.contourArea, hs, cImg])
    cRun

/-- Witness for C6 at a concrete nonempty mask: a fully lit 6 by 6 mask. -/
theorem checkGridSeams_ok_iff_w :
    ((grid.checkGridSeams ⟨6, 6, fun _ _ => 255⟩).ok = true ↔
      (grid.near (grid.checkGridSeams ⟨6, 6, fun _ _ => 255⟩).cx1 (6 / 3) (6 / 6) = true ∧
       grid.near (grid.checkGridSeams ⟨6, 6, fun _ _ => 255⟩).cx2 (2 * 6 / 3) (6 / 6) = true ∧
       grid.near (grid.checkGridSeams ⟨6, 6, fun _ _ => 255⟩).cy1 (6 / 3) (6 / 6) = true ∧
       grid.near (grid.checkGridSeams ⟨6, 6, fun _ _ => 255⟩).cy2 (2 * 6 / 3) (6 / 6) = true ∧
       ((6 : ℚ) / 6 ≤ ((grid.checkGridSeams ⟨6, 6, fun _ _ => 255⟩).cx2 : ℚ) -
          ((grid.checkGridSeams ⟨6, 6, fun _ _ => 255⟩).cx1 : ℚ)) ∧
       ((6 : ℚ) / 6 ≤ ((grid.checkGridSeams ⟨6, 6, fun _ _ => 255⟩).cy2 : ℚ) -
          ((grid.checkGridSeams ⟨6, 6, fun _ _ => 255⟩).cy1 : ℚ)))) := by
  have h := checkGridSeams_ok_iff ⟨6, 6, fun _ _ => 255⟩ (by decide) (by decide)
  exact_mod_cast h
